import Mathlib

/-!
# Verification of the task-manager core (task store, filter/sort, statistics, storage recovery)

Shallow embedding of the repository's JavaScript task-management modules:

* `src/js/taskManager.js` — CRUD, subtasks, recurrence (`createTask`, `updateTask`,
  `deleteTask`, `toggleTaskStatus`, `createSubtask`, `updateParentTaskProgress`,
  `calculateNextOccurrence`, `createNextRecurrence`, `toggleTaskStatusWithRecurrence`);
* the filtering/sorting module (`sortTasks`);
* the statistics module (`calculateStatistics`);
* the localStorage module (`handleQuotaExceeded`);
* the utilities module (`sanitizeString`, `truncate`, `validateDate`).

Modelling conventions, used throughout:

* Calendar dates are modelled by `CivilDate` (year/month/day); the host `Date` object
  is modelled in UTC, so `setHours(0,0,0,0)` on a date-only string is the identity and
  `toISOString().split('T')[0]` is `CivilDate.format`.  `new Date(s)` on a string is
  modelled by `parseDate`, which accepts exactly the ISO `YYYY-MM-DD` dates (the format
  the application itself produces and validates); any other string is unparsable.
* Clock readings (`new Date().toISOString()`, `Date.now()`) are passed in explicitly as
  a `now : Nat` timestamp; `generateId()` is passed in as an explicit `freshId` string.
* JavaScript string falsiness (`!s` is true for `""`) is modelled explicitly where the
  source relies on it; `null`/`undefined` fields are `Option`s.
* Thrown exceptions are modelled by `Except Err`; each store operation returns the
  storage contents after the call together with its outcome, so an operation that
  throws before its `saveTasks` call returns the unchanged storage.
* `localStorage` holds the task collection; `getTasks`/`saveTasks` are modelled by
  threading the `List Task` storage value through the operations, re-read at each step
  exactly as the source re-reads it.
-/

namespace TaskManager

/-! ## Date model -/

/-- A calendar day, as produced by parsing a `YYYY-MM-DD` string (UTC model of the
host `Date`). -/
structure CivilDate where
  year : Nat
  month : Nat
  day : Nat
deriving DecidableEq, Repr

/-- Gregorian leap-year rule (as implemented by the host date library). -/
def isLeapYear (y : Nat) : Bool :=
  (y % 4 == 0 && y % 100 != 0) || y % 400 == 0

/-- Number of days in a month of a given year. -/
def daysInMonth (y m : Nat) : Nat :=
  if m == 2 then (if isLeapYear y then 29 else 28)
  else if m == 4 || m == 6 || m == 9 || m == 11 then 30
  else 31

/-- A `CivilDate` that denotes an actual calendar day. -/
def CivilDate.Valid (d : CivilDate) : Prop :=
  1 ≤ d.month ∧ d.month ≤ 12 ∧ 1 ≤ d.day ∧ d.day ≤ daysInMonth d.year d.month

instance (d : CivilDate) : Decidable d.Valid := by
  unfold CivilDate.Valid; infer_instance

/-- The day after `d` (host date normalization across month/year ends). -/
def CivilDate.nextDay (d : CivilDate) : CivilDate :=
  if d.day < daysInMonth d.year d.month then ⟨d.year, d.month, d.day + 1⟩
  else if d.month < 12 then ⟨d.year, d.month + 1, 1⟩
  else ⟨d.year + 1, 1, 1⟩

/-- Advance a date by `n` days (models `date.setDate(date.getDate() + n)`). -/
def CivilDate.addDays : Nat → CivilDate → CivilDate
  | 0, d => d
  | n + 1, d => CivilDate.addDays n d.nextDay

/-- Advance a date by `k` calendar months, modelling `date.setMonth(date.getMonth() + k)`:
the month index is advanced and a day-of-month that overflows the target month is
normalized by rolling the excess days into the following month (e.g. Jan 31 + 1 month
= Feb 31 = Mar 2 or Mar 3 depending on leap year).  Since the day of a valid date is
at most 31 and every month has at least 28 days, the overflow is at most 3 days, so a
single roll reaches the normalized date. -/
def CivilDate.addMonths (k : Nat) (d : CivilDate) : CivilDate :=
  let t := d.year * 12 + (d.month - 1) + k
  let y := t / 12
  let m := t % 12 + 1
  if d.day ≤ daysInMonth y m then ⟨y, m, d.day⟩
  else
    let excess := d.day - daysInMonth y m
    if m < 12 then ⟨y, m + 1, excess⟩ else ⟨y + 1, 1, excess⟩

/-- Ordinal key of a date: for valid dates (month ≤ 12, day ≤ 31) comparing keys is
chronological comparison, so it models comparison of `Date` values. -/
def CivilDate.key (d : CivilDate) : Nat :=
  d.year * 10000 + d.month * 100 + d.day

/-- Decimal digit value of a character, or `none`. -/
def digitVal (c : Char) : Option Nat :=
  if c.isDigit then some (c.toNat - 48) else none

/-- Models `new Date(s)` on strings: exactly the valid ISO `YYYY-MM-DD` dates parse
(the only format the application stores); everything else is an invalid date. -/
def parseDate (s : String) : Option CivilDate :=
  match s.toList with
  | [y1, y2, y3, y4, '-', m1, m2, '-', d1, d2] =>
    match digitVal y1, digitVal y2, digitVal y3, digitVal y4,
          digitVal m1, digitVal m2, digitVal d1, digitVal d2 with
    | some a, some b, some c, some e, some f, some g, some h, some i =>
      let y := a * 1000 + b * 100 + c * 10 + e
      let m := f * 10 + g
      let d := h * 10 + i
      if 1 ≤ m ∧ m ≤ 12 ∧ 1 ≤ d ∧ d ≤ daysInMonth y m then some ⟨y, m, d⟩ else none
    | _, _, _, _, _, _, _, _ => none
  | _ => none

/-- Zero-padded two-digit rendering. -/
def pad2 (n : Nat) : String :=
  if n < 10 then "0" ++ toString n else toString n

/-- Zero-padded four-digit rendering. -/
def pad4 (n : Nat) : String :=
  if n < 10 then "000" ++ toString n
  else if n < 100 then "00" ++ toString n
  else if n < 1000 then "0" ++ toString n
  else toString n

/-- Models `date.toISOString().split('T')[0]` in the UTC date model. -/
def CivilDate.format (d : CivilDate) : String :=
  pad4 d.year ++ "-" ++ pad2 d.month ++ "-" ++ pad2 d.day

/-! ## Utilities (`utils.js`) -/

/-- Models `String.prototype.trim()`: strip whitespace from both ends (defined over
the character list so that concrete instances evaluate). -/
def jsTrim (s : String) : String :=
  ⟨((s.data.dropWhile (·.isWhitespace)).reverse.dropWhile (·.isWhitespace)).reverse⟩

/-- HTML escape of one character, as produced by the DOM
`textContent`/`innerHTML` round trip. -/
def escapeChar (c : Char) : List Char :=
  if c = '&' then "&amp;".data
  else if c = '<' then "&lt;".data
  else if c = '>' then "&gt;".data
  else [c]

/-- Models `sanitizeString` from `utils.js`: the DOM `textContent`/`innerHTML` round
trip HTML-escapes the string (`&`, `<`, `>` become entities). -/
def sanitizeString (s : String) : String :=
  ⟨s.data.foldr (fun c acc => escapeChar c ++ acc) []⟩

/-- Embedding of `truncate` from `utils.js`: `if (!str || str.length <= maxLength) return str;
return str.substring(0, maxLength).trim();`. -/
def truncate (s : String) (maxLength : Nat) : String :=
  if s.isEmpty || s.length ≤ maxLength then s
  else jsTrim ⟨s.data.take maxLength⟩

/-! ## Task data model -/

/-- A recurrence rule: `{ frequency: 'daily'|'weekly'|'monthly', interval: number }`;
`interval` may be absent (`none`), in which case `calculateNextOccurrence`
destructures it with default `1`. -/
structure Recur where
  frequency : String
  interval : Option Nat := none
deriving DecidableEq, Repr

/-- A stored task record, with the fields `createTask` initializes.  Timestamps
(`createdAt`, `updatedAt`, `completedAt`) are modelled as `Nat` clock readings;
`dueDate` is the stored ISO string or `null`. -/
structure Task where
  id : String
  title : String
  description : String := ""
  priority : String := "medium"
  status : String := "active"
  tags : List String := []
  dueDate : Option String := none
  parentId : Option String := none
  subtasks : List String := []
  recurring : Option Recur := none
  createdAt : Nat := 0
  updatedAt : Nat := 0
  completedAt : Option Nat := none
deriving DecidableEq, Repr

/-- JavaScript truthiness of a nullable string field (`null`, `undefined` and `""`
are falsy). -/
def jsTruthy : Option String → Bool
  | none => false
  | some s => !s.isEmpty

/-- The input object accepted by `createTask` (absent fields are `none`; an absent
title behaves like `""`, both being falsy). -/
structure TaskData where
  title : String := ""
  description : Option String := none
  priority : Option String := none
  tags : Option (List String) := none
  dueDate : Option String := none
  parentId : Option String := none
  recurring : Option Recur := none
deriving DecidableEq, Repr

/-- The patch object accepted by `updateTask`, restricted to the documented patch
fields (§4.1 of the spec): title, description, priority, status, tags, dueDate.
`dueDate = some none` models an explicit `null` (clear the date); `none` models an
absent field. -/
structure Patch where
  title : Option String := none
  description : Option String := none
  priority : Option String := none
  status : Option String := none
  tags : Option (List String) := none
  dueDate : Option (Option String) := none
deriving DecidableEq, Repr

/-- The errors thrown by the store: `Error('... title ...')`, `Error('Invalid
priority value')`, `Error('Invalid date format')` are validation errors;
`Error('Task not found')` / `Error('Parent task not found')` are not-found errors. -/
inductive Err where
  | validation
  | notFound
deriving DecidableEq, Repr

deriving instance DecidableEq for Except

/-! ## Task store (`taskManager.js`)

Each operation takes the current storage contents (the task collection as read by
`getTasks()`), plus explicit `now` / `freshId` inputs for the clock and id generator,
and returns the storage contents after the call together with the call's outcome.
Throw sites in the source precede the `saveTasks` call, so the error branches return
the unchanged storage. -/

/-- The dueDate initializer of `createTask`:
`taskData.dueDate ? validateDate(taskData.dueDate) : null` — a falsy (absent or
empty) value yields `null` without validation; otherwise `validateDate` returns the
string unchanged or throws `'Invalid date format'`. -/
def validateCreateDueDate : Option String → Except Err (Option String)
  | none => .ok none
  | some ds =>
    if ds.isEmpty then .ok none
    else if (parseDate ds).isSome then .ok (some ds)
    else .error .validation

/-- Embedding of `createTask(taskData)`.  Validates the title, builds the task record with
defaults (`validateDate` on a truthy `dueDate` throws on an unparsable value, and
`validateDate('')` never runs because `''` is falsy), coerces an out-of-enum priority
to `'medium'`, appends and saves. -/
def createTask (now : Nat) (freshId : String) (tasks : List Task) (taskData : TaskData) :
    List Task × Except Err Task :=
  if (jsTrim taskData.title).length = 0 then (tasks, .error .validation)
  else
    match validateCreateDueDate taskData.dueDate with
    | .error e => (tasks, .error e)
    | .ok dueDate =>
      let task : Task :=
        { id := freshId
          title := truncate (sanitizeString taskData.title) 200
          description := match taskData.description with
            | some d => if d.isEmpty then "" else sanitizeString d
            | none => ""
          priority := match taskData.priority with
            | some p => if p.isEmpty then "medium" else p   -- taskData.priority || 'medium'
            | none => "medium"
          status := "active"
          tags := taskData.tags.getD []
          dueDate := dueDate
          parentId := match taskData.parentId with
            | some p => if p.isEmpty then none else some p  -- taskData.parentId || null
            | none => none
          subtasks := []
          recurring := taskData.recurring
          createdAt := now
          updatedAt := now
          completedAt := none }
      let task :=
        if ¬ (["low", "medium", "high"].contains task.priority)
        then { task with priority := "medium" } else task
      (tasks ++ [task], .ok task)

/-- Embedding of `getTaskById(id)`: first task whose id matches, or `null`. -/
def getTaskById (tasks : List Task) (id : String) : Option Task :=
  tasks.find? (fun t => t.id == id)

/-- The `updates.title` validation step of `updateTask`: an empty trimmed title
throws; otherwise the title is sanitized and truncated in place. -/
def validatePatchTitle (p : Patch) : Except Err Patch :=
  match p.title with
  | some ttl =>
    if (jsTrim ttl).length = 0 then .error .validation
    else .ok { p with title := some (truncate (sanitizeString ttl) 200) }
  | none => .ok p

/-- The `updates.description` step of `updateTask`: a present description is
sanitized in place. -/
def validatePatchDescription (p : Patch) : Patch :=
  match p.description with
  | some d => { p with description := some (sanitizeString d) }
  | none => p

/-- The `updates.priority` validation step of `updateTask`: a present priority
outside the enum throws `'Invalid priority value'`. -/
def validatePatchPriority (p : Patch) : Except Err Unit :=
  match p.priority with
  | some pr =>
    if ¬ (["low", "medium", "high"].contains pr) then .error .validation else .ok ()
  | none => .ok ()

/-- The `updates.dueDate` validation step of `updateTask` (a defined non-null value
is validated; `validateDate('')` returns `null`). -/
def validatePatchDueDate (p : Patch) : Except Err Patch :=
  match p.dueDate with
  | some (some ds) =>
    if ds.isEmpty then .ok { p with dueDate := some none }
    else if (parseDate ds).isSome then .ok p
    else .error .validation
  | _ => .ok p

/-- The patch-validation block of `updateTask`, in source order: title, description,
priority, dueDate.  Returns the rewritten patch, or the thrown error. -/
def validatePatch (updates : Patch) : Except Err Patch :=
  match validatePatchTitle updates with
  | .error e => .error e
  | .ok p1 =>
    match validatePatchPriority (validatePatchDescription p1) with
    | .error e => .error e
    | .ok _ => validatePatchDueDate (validatePatchDescription p1)

/-- The spread `{...tasks[index], ...updates, updatedAt: now}`. -/
def applyPatch (old : Task) (p : Patch) (now : Nat) : Task :=
  { old with
    title := p.title.getD old.title
    description := p.description.getD old.description
    priority := p.priority.getD old.priority
    status := p.status.getD old.status
    tags := p.tags.getD old.tags
    dueDate := match p.dueDate with
      | some v => v
      | none => old.dueDate
    updatedAt := now }

/-- The status-change block of `updateTask`, applied to the merged record. -/
def handleStatusChange (now : Nat) (p : Patch) (merged : Task) : Task :=
  if p.status = some "completed" ∧ merged.completedAt = none then
    { merged with completedAt := some now }
  else if p.status = some "active" then
    { merged with completedAt := none }
  else merged

/-- Embedding of `updateTask(id, updates)`: find the task (else `Task not found`), validate the
patch, merge, apply the status-change rule, save. -/
def updateTask (now : Nat) (tasks : List Task) (id : String) (updates : Patch) :
    List Task × Except Err Task :=
  match tasks.findIdx? (fun t => t.id == id) with
  | none => (tasks, .error .notFound)
  | some index =>
    match tasks[index]? with
    | none => (tasks, .error .notFound)  -- unreachable: findIdx? returns an in-bounds index
    | some old =>
      match validatePatch updates with
      | .error e => (tasks, .error e)
      | .ok p =>
        (tasks.set index (handleStatusChange now p (applyPatch old p now)),
         .ok (handleStatusChange now p (applyPatch old p now)))

/-- Embedding of `deleteTask(id)`: filter the task out; if nothing was removed, `Task not found`. -/
def deleteTask (tasks : List Task) (id : String) : List Task × Except Err Bool :=
  if (tasks.filter (fun t => t.id != id)).length = tasks.length then
    (tasks, .error .notFound)
  else (tasks.filter (fun t => t.id != id), .ok true)

/-- Embedding of `toggleTaskStatus(id)`: flip active/completed via `updateTask`. -/
def toggleTaskStatus (now : Nat) (tasks : List Task) (id : String) :
    List Task × Except Err Task :=
  match getTaskById tasks id with
  | none => (tasks, .error .notFound)
  | some task =>
    let newStatus := if task.status == "active" then "completed" else "active"
    updateTask now tasks id { status := some newStatus }

/-- Embedding of `createSubtask(parentId, subtaskData)`.  Reads the collection, finds the parent,
delegates to `createTask` (which itself reads and writes storage), then writes its own
pre-`createTask` snapshot of the collection with the parent's `subtasks` extended —
faithfully reproducing the source, where this second write does not include the
record appended by the inner `createTask`. -/
def createSubtask (now : Nat) (freshId : String) (tasks : List Task)
    (parentId : String) (subtaskData : TaskData) : List Task × Except Err Task :=
  match tasks.find? (fun t => t.id == parentId) with
  | none => (tasks, .error .notFound)
  | some parentTask =>
    match createTask now freshId tasks { subtaskData with parentId := some parentId } with
    | (tasks1, .error e) => (tasks1, .error e)
    | (_, .ok subtask) =>
      let parentTask := { parentTask with
        subtasks := parentTask.subtasks ++ [subtask.id]
        updatedAt := now }
      match tasks.findIdx? (fun t => t.id == parentId) with
      | some taskIndex => (tasks.set taskIndex parentTask, .ok subtask)
      | none => (tasks, .ok subtask)  -- unreachable: the parent was found above

/-- Embedding of `getSubtasks(parentId)`: tasks whose `parentId` equals the given id. -/
def getSubtasks (tasks : List Task) (parentId : String) : List Task :=
  tasks.filter (fun t => t.parentId == some parentId)

/-- Embedding of `updateParentTaskProgress(parentId)`: force the parent completed when every
subtask is completed; force it back to active when some but not all are completed and
the parent is currently completed; otherwise leave storage untouched. -/
def updateParentTaskProgress (now : Nat) (tasks : List Task) (parentId : String) :
    List Task × Except Err Unit :=
  if (getSubtasks tasks parentId).isEmpty then (tasks, .ok ())
  else if (getSubtasks tasks parentId).all (fun st => st.status == "completed") then
    ((updateTask now tasks parentId { status := some "completed" }).1,
     (updateTask now tasks parentId { status := some "completed" }).2.map (fun _ => ()))
  else if (getSubtasks tasks parentId).any (fun st => st.status == "completed") then
    match getTaskById tasks parentId with
    | some parentTask =>
      if parentTask.status == "completed" then
        ((updateTask now tasks parentId { status := some "active" }).1,
         (updateTask now tasks parentId { status := some "active" }).2.map (fun _ => ()))
      else (tasks, .ok ())
    | none => (tasks, .ok ())
  else (tasks, .ok ())

/-- Embedding of `getSubtaskStats(parentId)`: `{total, completed, percentage}` with
`percentage = Math.round(100 * completed / total)` and `0` when `total = 0`. -/
def getSubtaskStats (tasks : List Task) (parentId : String) : Nat × Nat × Nat :=
  let subtasks := getSubtasks tasks parentId
  let total := subtasks.length
  let completed := (subtasks.filter (fun st => st.status == "completed")).length
  let percentage := if total > 0 then (completed * 200 + total) / (2 * total) else 0
  (total, completed, percentage)

/-- Embedding of `calculateNextOccurrence(task)`: `null` unless the task has a truthy recurrence
rule and a truthy due date; destructures `interval` with default `1`; advances the
current due date by `interval` days / `7 * interval` days / `interval` calendar
months according to `frequency`, returning `null` on an unrecognized frequency.  An
unparsable stored due date is modelled as `null` (the source would produce an invalid
date; stored due dates are always validated). -/
def calculateNextOccurrence (task : Task) : Option String :=
  match task.recurring, task.dueDate with
  | some rule, some ds =>
    if ds.isEmpty then none           -- '' is falsy: !task.dueDate
    else
      match parseDate ds with
      | none => none
      | some currentDue =>
        let interval := rule.interval.getD 1
        match rule.frequency with
        | "daily" => some (CivilDate.format (CivilDate.addDays interval currentDue))
        | "weekly" => some (CivilDate.format (CivilDate.addDays (7 * interval) currentDue))
        | "monthly" => some (CivilDate.format (CivilDate.addMonths interval currentDue))
        | _ => none
  | _, _ => none

/-- Embedding of `createNextRecurrence(task)`: `null` for a non-recurring task or when
`calculateNextOccurrence` yields nothing; otherwise a fresh top-level task cloning
title/description/priority/tags/recurring with the next due date. -/
def createNextRecurrence (now : Nat) (freshId : String) (tasks : List Task)
    (task : Task) : List Task × Except Err (Option Task) :=
  match task.recurring with
  | none => (tasks, .ok none)
  | some _ =>
    match calculateNextOccurrence task with
    | none => (tasks, .ok none)
    | some nextDueDate =>
      match createTask now freshId tasks
        { title := task.title
          description := some task.description
          priority := some task.priority
          tags := some task.tags
          dueDate := some nextDueDate
          recurring := task.recurring } with
      | (tasks1, .error e) => (tasks1, .error e)
      | (tasks1, .ok newTask) => (tasks1, .ok (some newTask))

/-- Embedding of `toggleTaskStatusWithRecurrence(id)`: toggle the status; if the task is being
completed, is recurring and has a falsy `parentId`, additionally create the next
recurrence.  Returns `{updatedTask, nextTask}`. -/
def toggleTaskStatusWithRecurrence (now : Nat) (freshId : String) (tasks : List Task)
    (id : String) : List Task × Except Err (Task × Option Task) :=
  match getTaskById tasks id with
  | none => (tasks, .error .notFound)
  | some task =>
    let newStatus := if task.status == "active" then "completed" else "active"
    match updateTask now tasks id { status := some newStatus } with
    | (tasks1, .error e) => (tasks1, .error e)
    | (tasks1, .ok updatedTask) =>
      if newStatus == "completed" && task.recurring.isSome && !(jsTruthy task.parentId) then
        match createNextRecurrence now freshId tasks1 task with
        | (tasks2, .error e) => (tasks2, .error e)
        | (tasks2, .ok nextTask) => (tasks2, .ok (updatedTask, nextTask))
      else (tasks1, .ok (updatedTask, none))

/-! ## Filter/Sort engine (filtering and sorting module)

`Array.prototype.sort` with a consistent comparator is a stable sort (ECMAScript
guarantees stability), modelled by `List.insertionSort` with the relation
"comparator ≤ 0": an element is placed before the first element it compares `≤ 0`
with, which keeps the original order of tied elements. -/

/-- The rank table `priorityOrder = { high: 3, medium: 2, low: 1 }` (lookup of any other key is
modelled as `0`; stored priorities are always in the enum). -/
def priorityOrder (p : String) : Int :=
  if p == "high" then 3 else if p == "medium" then 2 else if p == "low" then 1 else 0

/-- Numeric value of a stored due-date string for comparator arithmetic (an
unparsable string — impossible for validated stored dates — is modelled as `0`). -/
def dueDateNum (ds : String) : Int :=
  match parseDate ds with
  | some d => d.key
  | none => 0

/-- Model of `a.localeCompare(b)`: a total lexicographic comparison returning
`-1`/`0`/`1`. -/
def localeCompare (a b : String) : Int :=
  match compare a b with
  | .lt => -1
  | .eq => 0
  | .gt => 1

/-- The comparator passed to `sorted.sort(...)` in `sortTasks`: the `dueDate` branch
returns directly (bypassing the order flag) when a due date is missing; every other
comparison is negated wholesale when `sortOrder` is not `'asc'`. -/
def sortTasksCmp (sortBy sortOrder : String) (a b : Task) : Int :=
  let withOrder := fun (comparison : Int) =>
    if sortOrder == "asc" then comparison else -comparison
  if sortBy == "dueDate" then
    match (if jsTruthy a.dueDate then a.dueDate else none),
          (if jsTruthy b.dueDate then b.dueDate else none) with
    | none, none => 0          -- early return 0
    | none, some _ => 1        -- tasks without due dates go to the end
    | some _, none => -1
    | some da, some db => withOrder (dueDateNum da - dueDateNum db)
  else
    withOrder
      (if sortBy == "priority" then priorityOrder b.priority - priorityOrder a.priority
       else if sortBy == "createdAt" then (a.createdAt : Int) - b.createdAt
       else if sortBy == "updatedAt" then (a.updatedAt : Int) - b.updatedAt
       else if sortBy == "title" then localeCompare a.title b.title
       else 0)

/-- Embedding of `sortTasks(tasks, sortBy, sortOrder)`: stable sort of a copy of the list by the
comparator. -/
def sortTasks (tasks : List Task) (sortBy : String := "dueDate")
    (sortOrder : String := "asc") : List Task :=
  List.insertionSort (fun a b => sortTasksCmp sortBy sortOrder a b ≤ 0) tasks

/-! ## Statistics engine (statistics module) -/

/-- The statistics record built by `calculateStatistics` (nested objects
`byPriority.{high,medium,low}` and `byStatus.{active,completed}` are flattened into
prefixed fields). -/
structure Stats where
  total : Nat := 0
  active : Nat := 0
  completed : Nat := 0
  overdue : Nat := 0
  completionRate : Nat := 0
  byPriorityHigh : Nat := 0
  byPriorityMedium : Nat := 0
  byPriorityLow : Nat := 0
  byStatusActive : Nat := 0
  byStatusCompleted : Nat := 0
  dueToday : Nat := 0
  dueThisWeek : Nat := 0
  dueSoon : Nat := 0
  noDueDate : Nat := 0
deriving DecidableEq, Repr

/-- The status-count block of the `calculateStatistics` loop body. -/
def statsStatusCount (stats : Stats) (task : Task) : Stats :=
  if task.status == "active" then
    { stats with active := stats.active + 1, byStatusActive := stats.byStatusActive + 1 }
  else if task.status == "completed" then
    { stats with completed := stats.completed + 1,
                 byStatusCompleted := stats.byStatusCompleted + 1 }
  else stats

/-- The priority-count block of the `calculateStatistics` loop body
(`task.priority in stats.byPriority`). -/
def statsPriorityCount (stats : Stats) (task : Task) : Stats :=
  if task.priority == "high" then
    { stats with byPriorityHigh := stats.byPriorityHigh + 1 }
  else if task.priority == "medium" then
    { stats with byPriorityMedium := stats.byPriorityMedium + 1 }
  else if task.priority == "low" then
    { stats with byPriorityLow := stats.byPriorityLow + 1 }
  else stats

/-- The overdue check of the due-date block: `dueDate < today`. -/
def statsOverdue (today : CivilDate) (dd : CivilDate) (stats : Stats) : Stats :=
  if dd.key < today.key then { stats with overdue := stats.overdue + 1 } else stats

/-- The due-today check of the due-date block: `dueDate.getTime() === today.getTime()`
increments **both** `dueToday` and `dueSoon`. -/
def statsDueToday (today : CivilDate) (dd : CivilDate) (stats : Stats) : Stats :=
  if dd.key = today.key then
    { stats with dueToday := stats.dueToday + 1, dueSoon := stats.dueSoon + 1 }
  else stats

/-- The due-this-week check of the due-date block: `today ≤ dueDate ≤ weekFromNow`
increments `dueThisWeek`, and additionally `dueSoon` when
`dueDate ≤ threeDaysFromNow`. -/
def statsDueWeek (today weekFromNow threeDaysFromNow : CivilDate) (dd : CivilDate)
    (stats : Stats) : Stats :=
  if today.key ≤ dd.key ∧ dd.key ≤ weekFromNow.key then
    if dd.key ≤ threeDaysFromNow.key then
      { stats with dueThisWeek := stats.dueThisWeek + 1, dueSoon := stats.dueSoon + 1 }
    else { stats with dueThisWeek := stats.dueThisWeek + 1 }
  else stats

/-- The due-date block of the `calculateStatistics` loop body, applied to active
tasks only.  An unparsable due date (impossible for stored tasks) counts in no
bucket, matching the always-false `NaN` comparisons of an invalid `Date`. -/
def statsDueBuckets (today weekFromNow threeDaysFromNow : CivilDate) (stats : Stats)
    (task : Task) : Stats :=
  if task.status == "active" then
    if ¬ jsTruthy task.dueDate then { stats with noDueDate := stats.noDueDate + 1 }
    else
      match task.dueDate.bind parseDate with
      | none => stats
      | some dueDate =>
        statsDueWeek today weekFromNow threeDaysFromNow dueDate
          (statsDueToday today dueDate (statsOverdue today dueDate stats))
  else stats

/-- The body of the `tasks.forEach` loop of `calculateStatistics`: status counts,
priority counts, then the due-date buckets. -/
def statsStep (today weekFromNow threeDaysFromNow : CivilDate) (stats : Stats)
    (task : Task) : Stats :=
  statsDueBuckets today weekFromNow threeDaysFromNow
    (statsPriorityCount (statsStatusCount stats task) task) task

/-- Evaluation of `Math.round(100 * completed / total)` for `total > 0` (round-half-up on the
exact rational). -/
def jsRoundPct (completed total : Nat) : Nat :=
  (completed * 200 + total) / (2 * total)

/-- Embedding of `calculateStatistics(tasks)`, with the start of the current day passed in as
`today` (the source computes it from the clock and `setHours(0,0,0,0)`). -/
def calculateStatistics (tasks : List Task) (today : CivilDate) : Stats :=
  let weekFromNow := CivilDate.addDays 7 today
  let threeDaysFromNow := CivilDate.addDays 3 today
  let stats := tasks.foldl (statsStep today weekFromNow threeDaysFromNow)
    { total := tasks.length }
  if stats.total > 0 then
    { stats with completionRate := jsRoundPct stats.completed stats.total }
  else stats

/-! ## Persistence gateway recovery (localStorage module) -/

/-- The strategy-1 keep predicate of `handleQuotaExceeded`: a task survives unless it
is completed, has a truthy `completedAt`, and its completion is not after the
30-days-ago cutoff. -/
def keepRecent (thirtyDaysAgo : Nat) (task : Task) : Bool :=
  if task.status == "completed" then
    match task.completedAt with
    | some c => c > thirtyDaysAgo    -- new Date(task.completedAt) > thirtyDaysAgo
    | none => true                   -- falsy completedAt: kept
  else true

/-- The outcome of `handleQuotaExceeded`: the task collection finally saved, and the
collection handed to `exportTasks` when the export was offered and accepted. -/
structure QuotaRecovery where
  savedTasks : List Task
  exported : Option (List Task)
deriving DecidableEq, Repr

/-- Embedding of `handleQuotaExceeded()`, with the 30-days-ago cutoff passed in as a timestamp and
the user's answer to the export `confirm` dialog as `shouldExport`.  Strategy 1:
drop completed tasks older than 30 days; if that removed anything, save and stop.
Strategy 2: optionally export all tasks, then keep only active tasks.  (The
`saveTasks` calls inside recovery are modelled as final writes.) -/
def handleQuotaExceeded (thirtyDaysAgo : Nat) (shouldExport : Bool)
    (tasks : List Task) : QuotaRecovery :=
  let filtered := tasks.filter (keepRecent thirtyDaysAgo)
  if filtered.length < tasks.length then
    { savedTasks := filtered, exported := none }
  else
    { savedTasks := tasks.filter (fun task => task.status == "active")
      exported := if shouldExport then some tasks else none }

/-! ## Concrete fixtures for the sorting scenario -/

/-- A high-priority task with no due date. -/
def fixHigh : Task := { id := "task-high", title := "High task", priority := "high" }

/-- A medium-priority task with no due date. -/
def fixMed : Task := { id := "task-med", title := "Medium task", priority := "medium" }

/-- A low-priority task with no due date. -/
def fixLow : Task := { id := "task-low", title := "Low task", priority := "low" }

/-- A second high-priority task, distinct from `fixHigh` only in identity. -/
def fixHigh2 : Task := { id := "task-high2", title := "High task 2", priority := "high" }

/-- Claim **C1 (counterexample).** On the fixed input of three tasks with priorities high,
medium and low and no due dates, `sort(tasks, "priority", "asc")` does **not** return
`[low, medium, high]`, and `sort(tasks, "priority", "desc")` does **not** return
`[high, medium, low]`: the priority comparison is `rank(b) - rank(a)`, so the
ascending order flag yields the high-to-low ranking. -/
theorem C1_sort_priority_scenario_counterexample :
    sortTasks [fixHigh, fixMed, fixLow] "priority" "asc" ≠ [fixLow, fixMed, fixHigh] ∧
    sortTasks [fixHigh, fixMed, fixLow] "priority" "desc" ≠ [fixHigh, fixMed, fixLow] := by
  decide

/-- Claim **C1 (amended).** For the fixed input of three tasks with priorities high, medium
and low and no due dates, `sort(tasks, "priority", "asc")` returns them in the order
`[high, medium, low]`, and `sort(tasks, "priority", "desc")` returns them in the
order `[low, medium, high]`. -/
theorem C1_sort_priority_scenario_amended :
    sortTasks [fixHigh, fixMed, fixLow] "priority" "asc" = [fixHigh, fixMed, fixLow] ∧
    sortTasks [fixHigh, fixMed, fixLow] "priority" "desc" = [fixLow, fixMed, fixHigh] := by
  decide

/-- Claim **C7 (counterexample).** `sort(tasks, "priority", "desc")` is not always the
element-wise reverse of `sort(tasks, "priority", "asc")`: with two distinct tasks of
equal priority, the stable sort keeps their original relative order under both order
flags, while the reverse swaps them. -/
theorem C7_sort_priority_reverse_counterexample :
    sortTasks [fixHigh2, fixHigh] "priority" "desc" ≠
      (sortTasks [fixHigh2, fixHigh] "priority" "asc").reverse := by
  decide

/-! ### Helper lemmas about the priority sort -/

/-- The `"priority"`/`"asc"` comparator is the fixed-rank comparison `rank b - rank a`. -/
theorem sortTasksCmp_priority_asc (a b : Task) :
    sortTasksCmp "priority" "asc" a b =
      priorityOrder b.priority - priorityOrder a.priority := rfl

/-- The `"priority"`/`"desc"` comparator is the negated `"asc"` comparator. -/
theorem sortTasksCmp_priority_desc (a b : Task) :
    sortTasksCmp "priority" "desc" a b =
      -(priorityOrder b.priority - priorityOrder a.priority) := rfl

/-- The ascending priority sort is pairwise ranked high-to-low. -/
theorem sortTasks_priority_asc_pairwise (tasks : List Task) :
    (sortTasks tasks "priority" "asc").Pairwise
      (fun a b => priorityOrder b.priority ≤ priorityOrder a.priority) := by
  haveI : IsTotal Task (fun a b => sortTasksCmp "priority" "asc" a b ≤ 0) :=
    ⟨by intro a b; simp only [sortTasksCmp_priority_asc]; omega⟩
  haveI : IsTrans Task (fun a b => sortTasksCmp "priority" "asc" a b ≤ 0) :=
    ⟨by intro a b c; simp only [sortTasksCmp_priority_asc]; omega⟩
  have h := List.sorted_insertionSort
    (fun a b => sortTasksCmp "priority" "asc" a b ≤ 0) tasks
  exact h.imp (by intro a b hab; rw [sortTasksCmp_priority_asc] at hab; omega)

/-- The descending priority sort is pairwise ranked low-to-high. -/
theorem sortTasks_priority_desc_pairwise (tasks : List Task) :
    (sortTasks tasks "priority" "desc").Pairwise
      (fun a b => priorityOrder a.priority ≤ priorityOrder b.priority) := by
  haveI : IsTotal Task (fun a b => sortTasksCmp "priority" "desc" a b ≤ 0) :=
    ⟨by intro a b; simp only [sortTasksCmp_priority_desc]; omega⟩
  haveI : IsTrans Task (fun a b => sortTasksCmp "priority" "desc" a b ≤ 0) :=
    ⟨by intro a b c; simp only [sortTasksCmp_priority_desc]; omega⟩
  have h := List.sorted_insertionSort
    (fun a b => sortTasksCmp "priority" "desc" a b ≤ 0) tasks
  exact h.imp (by intro a b hab; rw [sortTasksCmp_priority_desc] at hab; omega)

/-- Sorting permutes the input list. -/
theorem sortTasks_perm (tasks : List Task) (sortBy sortOrder : String) :
    (sortTasks tasks sortBy sortOrder).Perm tasks :=
  List.perm_insertionSort _ tasks

/-- Claim **C7 (amended).** For every fixed task list in which no two tasks have the same
priority rank, the sequence returned by `sort(tasks, "priority", "desc")` is the
element-wise exact reverse of the sequence returned by
`sort(tasks, "priority", "asc")`.  (With tied priorities the stable sort keeps the
original relative order under both flags, so the reverse identity fails — see the
counterexample.) -/
theorem C7_sort_priority_desc_reverse_asc_amended (tasks : List Task)
    (hdist : tasks.Pairwise
      (fun a b => priorityOrder a.priority ≠ priorityOrder b.priority)) :
    sortTasks tasks "priority" "desc" = (sortTasks tasks "priority" "asc").reverse := by
  have hpermA : (sortTasks tasks "priority" "asc").Perm tasks := sortTasks_perm tasks _ _
  have hpermD : (sortTasks tasks "priority" "desc").Perm tasks := sortTasks_perm tasks _ _
  have hpermArev : ((sortTasks tasks "priority" "asc").reverse).Perm tasks :=
    (List.reverse_perm _).trans hpermA
  -- the reverse of the ascending sort is pairwise ranked low-to-high
  have hArev : (sortTasks tasks "priority" "asc").reverse.Pairwise
      (fun a b => priorityOrder a.priority ≤ priorityOrder b.priority) :=
    List.pairwise_reverse.mpr (sortTasks_priority_asc_pairwise tasks)
  have hD := sortTasks_priority_desc_pairwise tasks
  -- transfer the pairwise-distinct-ranks hypothesis to both lists
  have hne : ∀ {x y : Task},
      priorityOrder x.priority ≠ priorityOrder y.priority →
      priorityOrder y.priority ≠ priorityOrder x.priority := fun h => h.symm
  have hdistD := (List.Perm.pairwise_iff hne hpermD).mpr hdist
  have hdistArev := (List.Perm.pairwise_iff hne hpermArev).mpr hdist
  -- both lists are strictly sorted by rank, hence equal as permutations of each other
  haveI : IsAntisymm Task (fun a b => priorityOrder a.priority < priorityOrder b.priority) :=
    ⟨by intro a b h1 h2; omega⟩
  refine List.eq_of_perm_of_sorted
    (r := fun a b => priorityOrder a.priority < priorityOrder b.priority)
    (hpermD.trans hpermArev.symm) ?_ ?_
  · exact (hD.and hdistD).imp (by intro a b h; rcases h with ⟨h1, h2⟩; omega)
  · exact (hArev.and hdistArev).imp (by intro a b h; rcases h with ⟨h1, h2⟩; omega)

/-- Claim **C7 (witness for the amended theorem).** The amended reverse identity holds on a
concrete three-task list with pairwise distinct priorities. -/
theorem C7_sort_priority_desc_reverse_asc_amended_witness :
    ([fixHigh, fixMed, fixLow] : List Task).Pairwise
      (fun a b => priorityOrder a.priority ≠ priorityOrder b.priority) ∧
    sortTasks [fixHigh, fixMed, fixLow] "priority" "desc" =
      (sortTasks [fixHigh, fixMed, fixLow] "priority" "asc").reverse :=
  ⟨by decide, C7_sort_priority_desc_reverse_asc_amended [fixHigh, fixMed, fixLow] (by decide)⟩

/-! ### Helper lemmas about the store operations -/

/-- A `createTask` call that throws leaves storage untouched (every throw site
precedes the `saveTasks` call). -/
theorem createTask_error_state {now : Nat} {fid : String} {tasks : List Task}
    {d : TaskData} {e : Err} (h : (createTask now fid tasks d).2 = .error e) :
    (createTask now fid tasks d).1 = tasks := by
  revert h
  unfold createTask
  split
  · intro _; rfl
  · split
    · intro _; rfl
    · intro h; simp at h

/-- An `updateTask` call that throws leaves storage untouched. -/
theorem updateTask_error_state {now : Nat} {tasks : List Task} {id : String}
    {p : Patch} {e : Err} (h : (updateTask now tasks id p).2 = .error e) :
    (updateTask now tasks id p).1 = tasks := by
  revert h
  unfold updateTask
  split
  · intro _; rfl
  · split
    · intro _; rfl
    · split
      · intro _; rfl
      · intro h; simp at h

/-- A `deleteTask` call that throws leaves storage untouched. -/
theorem deleteTask_error_state {tasks : List Task} {id : String} {e : Err}
    (h : (deleteTask tasks id).2 = .error e) : (deleteTask tasks id).1 = tasks := by
  revert h
  unfold deleteTask
  split
  · intro _; rfl
  · intro h; simp at h

/-- A successful `updateTask` call replaces the found record with the merged record
and returns it. -/
theorem updateTask_ok_eq (now : Nat) {tasks : List Task} {id : String} (p : Patch)
    {i : Nat} {told : Task} {p' : Patch}
    (hIdx : tasks.findIdx? (fun t => t.id == id) = some i)
    (hGet : tasks[i]? = some told)
    (hVal : validatePatch p = .ok p') :
    updateTask now tasks id p =
      (tasks.set i (handleStatusChange now p' (applyPatch told p' now)),
       .ok (handleStatusChange now p' (applyPatch told p' now))) := by
  unfold updateTask
  rw [hIdx]
  simp only [hGet, hVal]

/-- The title-validation step never changes the status field. -/
theorem validatePatchTitle_status {p p' : Patch} (h : validatePatchTitle p = .ok p') :
    p'.status = p.status := by
  revert h
  unfold validatePatchTitle
  split
  · split
    · intro h; cases h
    · intro h; cases h; rfl
  · intro h; cases h; rfl

/-- The description step never changes the status field. -/
theorem validatePatchDescription_status (p : Patch) :
    (validatePatchDescription p).status = p.status := by
  unfold validatePatchDescription
  cases p.description <;> rfl

/-- The dueDate-validation step never changes the status field. -/
theorem validatePatchDueDate_status {p p' : Patch}
    (h : validatePatchDueDate p = .ok p') : p'.status = p.status := by
  revert h
  unfold validatePatchDueDate
  split
  · split
    · intro h; cases h; rfl
    · split
      · intro h; cases h; rfl
      · intro h; cases h
  · intro h; cases h; rfl

/-- Patch validation rewrites title/description/dueDate but never the status field. -/
theorem validatePatch_status {p p' : Patch} (h : validatePatch p = .ok p') :
    p'.status = p.status := by
  revert h
  unfold validatePatch
  split
  · intro h; cases h
  · split
    · intro h; cases h
    · intro h
      rw [validatePatchDueDate_status h, validatePatchDescription_status]
      exact validatePatchTitle_status (by assumption)

/-- The merge spread does not touch `completedAt`. -/
theorem applyPatch_completedAt (old : Task) (p : Patch) (now : Nat) :
    (applyPatch old p now).completedAt = old.completedAt := rfl

/-- The merge spread writes the patch's status when present. -/
theorem applyPatch_status_of_some {old : Task} {p : Patch} {now : Nat} {st : String}
    (h : p.status = some st) : (applyPatch old p now).status = st := by
  unfold applyPatch
  simp [h]

/-- A fresh active sample task, stored under id `t1`. -/
def sampleActive : Task := { id := "t1", title := "Sample" }

/-- A completed sample task with a recorded completion stamp. -/
def sampleCompleted : Task :=
  { id := "t1", title := "Sample", status := "completed", completedAt := some 7 }

/-- Claim **C5.** A `create`, `update` or `delete` call that fails with a
`ValidationError` or a `NotFoundError` leaves the persisted collection exactly as it
was before the call: every throw site in the source precedes the single `saveTasks`
write of the operation, so no partial mutation is persisted. -/
theorem C5_no_partial_mutation_on_error (now : Nat) (freshId id : String)
    (tasks : List Task) (d : TaskData) (p : Patch) :
    (∀ e, (createTask now freshId tasks d).2 = .error e →
      (createTask now freshId tasks d).1 = tasks) ∧
    (∀ e, (updateTask now tasks id p).2 = .error e →
      (updateTask now tasks id p).1 = tasks) ∧
    (∀ e, (deleteTask tasks id).2 = .error e → (deleteTask tasks id).1 = tasks) :=
  ⟨fun _ h => createTask_error_state h,
   fun _ h => updateTask_error_state h,
   fun _ h => deleteTask_error_state h⟩

/-- Claim **C5 (witness).** Concrete failing calls — an empty title on create, an unknown
id on update and delete — leave a concrete store unchanged. -/
theorem C5_no_partial_mutation_on_error_witness :
    ((createTask 0 "fresh" [sampleActive] { title := "" }).2 = .error .validation ∧
      (createTask 0 "fresh" [sampleActive] { title := "" }).1 = [sampleActive]) ∧
    ((updateTask 0 [sampleActive] "missing" {}).2 = .error .notFound ∧
      (updateTask 0 [sampleActive] "missing" {}).1 = [sampleActive]) ∧
    ((deleteTask [sampleActive] "missing").2 = .error .notFound ∧
      (deleteTask [sampleActive] "missing").1 = [sampleActive]) := by
  have h1 : (createTask 0 "fresh" [sampleActive] { title := "" }).2 =
      .error .validation := by decide
  have h2 : (updateTask 0 [sampleActive] "missing" {}).2 = .error .notFound := by decide
  have h3 : (deleteTask [sampleActive] "missing").2 = .error .notFound := by decide
  exact ⟨⟨h1, (C5_no_partial_mutation_on_error 0 "fresh" "missing" [sampleActive]
      { title := "" } {}).1 .validation h1⟩,
    ⟨h2, (C5_no_partial_mutation_on_error 0 "fresh" "missing" [sampleActive]
      { title := "" } {}).2.1 .notFound h2⟩,
    ⟨h3, (C5_no_partial_mutation_on_error 0 "fresh" "missing" [sampleActive]
      { title := "" } {}).2.2 .notFound h3⟩⟩

/-- Claim **C2.** For every stored task and every update patch: a `status: completed`
patch sets `completedAt` to the current time only when the stored `completedAt` was
null, and never overwrites a non-null `completedAt` (completing an already-completed
task is a no-op on `completedAt`); a `status: active` patch clears `completedAt`
unconditionally. -/
theorem C2_update_status_completedAt_rule (now : Nat) (tasks : List Task)
    (id : String) (p : Patch) (i : Nat) (told : Task)
    (hIdx : tasks.findIdx? (fun t => t.id == id) = some i)
    (hGet : tasks[i]? = some told) :
    (p.status = some "completed" →
      ∀ u, (updateTask now tasks id p).2 = .ok u →
        u.completedAt = if told.completedAt = none then some now else told.completedAt) ∧
    (p.status = some "active" →
      ∀ u, (updateTask now tasks id p).2 = .ok u → u.completedAt = none) := by
  cases hVal : validatePatch p with
  | error e =>
    have hres : (updateTask now tasks id p).2 = .error e := by
      unfold updateTask
      rw [hIdx]
      simp only [hGet, hVal]
    constructor
    · intro _ u hu; rw [hres] at hu; cases hu
    · intro _ u hu; rw [hres] at hu; cases hu
  | ok p' =>
    have heq := updateTask_ok_eq now p hIdx hGet hVal
    have hst := validatePatch_status hVal
    constructor
    · intro hcompleted u hu
      rw [heq] at hu
      cases hu
      unfold handleStatusChange
      rw [hst, hcompleted, applyPatch_completedAt]
      by_cases hc : told.completedAt = none
      · rw [if_pos ⟨rfl, hc⟩, if_pos hc]
      · rw [if_neg (fun h => hc h.2), if_neg hc,
            if_neg (by simp), applyPatch_completedAt]
    · intro hactive u hu
      rw [heq] at hu
      cases hu
      unfold handleStatusChange
      rw [hst, hactive]
      rw [if_neg (by simp), if_pos rfl]

/-- Claim **C2 (witness).** Completing a fresh task stamps `completedAt` with the clock;
completing an already-completed task keeps the old stamp; reactivating clears it. -/
theorem C2_update_status_completedAt_rule_witness :
    (∀ u, (updateTask 7 [sampleActive] "t1"
        { status := some "completed" }).2 = .ok u → u.completedAt = some 7) ∧
    (∀ u, (updateTask 9 [sampleCompleted] "t1"
        { status := some "completed" }).2 = .ok u → u.completedAt = some 7) ∧
    (∀ u, (updateTask 9 [sampleCompleted] "t1"
        { status := some "active" }).2 = .ok u → u.completedAt = none) := by
  refine ⟨fun u hu => ?_, fun u hu => ?_, fun u hu => ?_⟩
  · have h := (C2_update_status_completedAt_rule 7 [sampleActive]
      "t1" { status := some "completed" } 0 sampleActive rfl rfl).1 rfl u hu
    simpa [sampleActive] using h
  · have h := (C2_update_status_completedAt_rule 9 [sampleCompleted]
      "t1" { status := some "completed" } 0 sampleCompleted rfl rfl).1 rfl u hu
    simpa [sampleCompleted] using h
  · exact (C2_update_status_completedAt_rule 9 [sampleCompleted]
      "t1" { status := some "active" } 0 sampleCompleted rfl rfl).2 rfl u hu

/-- Claim **C9.** An update patch whose status is any string other than `'active'` or
`'completed'` (e.g. `'archived'`) is not rejected: `updateTask` validates priority
against its enum but never validates status, so the unrecognized status is merged
into the stored record verbatim and `completedAt` is left unchanged. -/
theorem C9_update_unvalidated_status (now : Nat) (tasks : List Task) (id st : String)
    (i : Nat) (told : Task)
    (hIdx : tasks.findIdx? (fun t => t.id == id) = some i)
    (hGet : tasks[i]? = some told)
    (hna : st ≠ "active") (hnc : st ≠ "completed") :
    ∃ u, updateTask now tasks id { status := some st } = (tasks.set i u, .ok u) ∧
      u.status = st ∧ u.completedAt = told.completedAt := by
  have hVal : validatePatch { status := some st } = .ok { status := some st } := rfl
  have heq := updateTask_ok_eq now { status := some st } hIdx hGet hVal
  refine ⟨_, heq, ?_, ?_⟩
  · unfold handleStatusChange
    rw [if_neg (fun h => hnc (Option.some.inj h.1)),
        if_neg (by simpa using hna)]
    exact applyPatch_status_of_some rfl
  · unfold handleStatusChange
    rw [if_neg (fun h => hnc (Option.some.inj h.1)),
        if_neg (by simpa using hna)]
    exact applyPatch_completedAt told _ now

/-- Claim **C9 (witness).** Patching a completed task with `status: 'archived'` succeeds,
stores `'archived'` verbatim, and keeps the stored `completedAt`. -/
theorem C9_update_unvalidated_status_witness :
    ∃ u, updateTask 9 [sampleCompleted] "t1" { status := some "archived" } =
        ([sampleCompleted].set 0 u, .ok u) ∧
      u.status = "archived" ∧ u.completedAt = some 7 :=
  C9_update_unvalidated_status 9 [sampleCompleted] "t1" "archived" 0 sampleCompleted
    rfl rfl (by decide) (by decide)
/-! ### C8: quota-exceeded recovery -/

/-- Embedding of `saveData(data)` at the point where the write fails: the quota check
(`serialized.length > MAX_STORAGE_SIZE` or a `QuotaExceededError` from the store) is
passed in as `exceedsQuota`.  On capacity failure the new data is discarded and
`handleQuotaExceeded` runs over the previously stored tasks; otherwise the new data
is written. -/
def saveData (exceedsQuota : Bool) (thirtyDaysAgo : Nat) (shouldExport : Bool)
    (storedTasks newTasks : List Task) : QuotaRecovery :=
  if exceedsQuota then handleQuotaExceeded thirtyDaysAgo shouldExport storedTasks
  else { savedTasks := newTasks, exported := none }

/-- Claim **C8.** Whenever a save fails with a capacity error, the gateway first removes
completed tasks whose completion is older than 30 days and stops there — offering no
export — if at least one task was removed; only when that first step removes nothing
does it offer to export all tasks (handing the full collection to `exportTasks` when
the user accepts) and then retain only active tasks, discarding every completed
task. -/
theorem C8_quota_recovery_policy (thirtyDaysAgo : Nat) (shouldExport : Bool)
    (storedTasks newTasks : List Task) :
    ((∃ t ∈ storedTasks, keepRecent thirtyDaysAgo t = false) →
      saveData true thirtyDaysAgo shouldExport storedTasks newTasks =
        { savedTasks := storedTasks.filter (keepRecent thirtyDaysAgo),
          exported := none }) ∧
    ((∀ t ∈ storedTasks, keepRecent thirtyDaysAgo t = true) →
      saveData true thirtyDaysAgo shouldExport storedTasks newTasks =
        { savedTasks := storedTasks.filter (fun task => task.status == "active"),
          exported := if shouldExport then some storedTasks else none }) := by
  constructor
  · intro h
    have hlt : (storedTasks.filter (keepRecent thirtyDaysAgo)).length <
        storedTasks.length := by
      rcases h with ⟨t, ht, hf⟩
      have hle := List.length_filter_le (keepRecent thirtyDaysAgo) storedTasks
      have hne : (storedTasks.filter (keepRecent thirtyDaysAgo)).length ≠
          storedTasks.length := by
        intro heq
        have := List.filter_length_eq_length.mp heq t ht
        rw [hf] at this
        cases this
      omega
    unfold saveData handleQuotaExceeded
    rw [if_pos rfl, if_pos hlt]
  · intro h
    have heq : storedTasks.filter (keepRecent thirtyDaysAgo) = storedTasks :=
      List.filter_eq_self.mpr h
    unfold saveData handleQuotaExceeded
    rw [if_pos rfl, if_neg (by rw [heq]; omega)]

/-- Claim **C8 (witness).** Both recovery branches at concrete inputs: a store holding a
stale completed task is pruned without an export offer; a store with no stale
completed task is reduced to its active tasks with the full collection exported. -/
theorem C8_quota_recovery_policy_witness :
    saveData true 100 true [sampleCompleted, sampleActive] [] =
      { savedTasks := [sampleActive], exported := none } ∧
    saveData true 3 true [sampleCompleted, sampleActive] [] =
      { savedTasks := [sampleActive], exported := some [sampleCompleted, sampleActive] } := by
  constructor
  · have h := (C8_quota_recovery_policy 100 true [sampleCompleted, sampleActive] []).1
      ⟨sampleCompleted, by decide, by decide⟩
    rw [h]
    decide
  · have h := (C8_quota_recovery_policy 3 true [sampleCompleted, sampleActive] []).2
      (by decide)
    rw [h]
    decide

/-! ### C10: recurrence with an absent interval -/

/-- A string that parses as a date is nonempty. -/
theorem parseDate_isEmpty_false {s : String} {d : CivilDate}
    (h : parseDate s = some d) : s.isEmpty = false := by
  cases hE : s.isEmpty
  · rfl
  · rw [(String.isEmpty_iff s).mp hE] at h
    cases h

/-- Claim **C10.** For every task with a due date and a recurrence rule whose `interval`
field is absent, `calculateNextOccurrence` behaves exactly as if `interval` were 1:
the destructuring default makes `daily` advance the due date by exactly 1 day,
`weekly` by exactly 7 days, and `monthly` by exactly 1 calendar month (host
`setMonth` normalization). -/
theorem C10_next_occurrence_default_interval (task : Task) (f ds : String)
    (d : CivilDate)
    (hrec : task.recurring = some { frequency := f, interval := none })
    (hdue : task.dueDate = some ds)
    (hparse : parseDate ds = some d) :
    calculateNextOccurrence task =
      calculateNextOccurrence
        { task with recurring := some { frequency := f, interval := some 1 } } ∧
    (f = "daily" →
      calculateNextOccurrence task = some (CivilDate.format (CivilDate.addDays 1 d))) ∧
    (f = "weekly" →
      calculateNextOccurrence task = some (CivilDate.format (CivilDate.addDays 7 d))) ∧
    (f = "monthly" →
      calculateNextOccurrence task = some (CivilDate.format (CivilDate.addMonths 1 d))) := by
  have hne := parseDate_isEmpty_false hparse
  refine ⟨?_, ?_, ?_, ?_⟩
  · unfold calculateNextOccurrence
    simp only [hrec, hdue, hne, Bool.false_eq_true, if_false, hparse,
      Option.getD_none, Option.getD_some]
  · intro hf; subst hf
    unfold calculateNextOccurrence
    simp only [hrec, hdue, hne, Bool.false_eq_true, if_false, hparse, Option.getD_none]
  · intro hf; subst hf
    unfold calculateNextOccurrence
    simp only [hrec, hdue, hne, Bool.false_eq_true, if_false, hparse, Option.getD_none]
  · intro hf; subst hf
    unfold calculateNextOccurrence
    simp only [hrec, hdue, hne, Bool.false_eq_true, if_false, hparse, Option.getD_none]

/-- Claim **C10 (witness).** A monthly rule with no `interval` on a task due 2024-01-31
advances by one calendar month (normalized to 2024-03-02, as 2024 is a leap year). -/
theorem C10_next_occurrence_default_interval_witness :
    calculateNextOccurrence
        { id := "r1", title := "Recurring", dueDate := some "2024-01-31",
          recurring := some { frequency := "monthly" } } =
      some (CivilDate.format (CivilDate.addMonths 1 ⟨2024, 1, 31⟩)) ∧
    CivilDate.format (CivilDate.addMonths 1 ⟨2024, 1, 31⟩) = "2024-03-02" := by
  constructor
  · exact (C10_next_occurrence_default_interval
      { id := "r1", title := "Recurring", dueDate := some "2024-01-31",
        recurring := some { frequency := "monthly" } }
      "monthly" "2024-01-31" ⟨2024, 1, 31⟩ rfl rfl (by decide)).2.2.2 rfl
  · decide

/-! ### C4: the dueSoon statistic -/

/-- Every month has at least 28 days. -/
theorem daysInMonth_ge (y m : Nat) : 28 ≤ daysInMonth y m := by
  unfold daysInMonth
  split_ifs <;> omega

/-- Every month has at most 31 days. -/
theorem daysInMonth_le (y m : Nat) : daysInMonth y m ≤ 31 := by
  unfold daysInMonth
  split_ifs <;> omega

/-- The successor of a valid date is valid. -/
theorem CivilDate.Valid.nextDay {d : CivilDate} (h : d.Valid) : d.nextDay.Valid := by
  obtain ⟨h1, h2, h3, h4⟩ := h
  have hg1 := daysInMonth_ge d.year (d.month + 1)
  have hg2 := daysInMonth_ge (d.year + 1) 1
  unfold CivilDate.nextDay
  split_ifs with hd hm <;> unfold CivilDate.Valid <;> dsimp only <;> omega

/-- Advancing a valid date by one day strictly increases its ordinal key. -/
theorem CivilDate.key_lt_nextDay {d : CivilDate} (h : d.Valid) :
    d.key < d.nextDay.key := by
  obtain ⟨h1, h2, h3, h4⟩ := h
  have hle := daysInMonth_le d.year d.month
  unfold CivilDate.nextDay CivilDate.key
  split_ifs with hd hm <;> dsimp only <;> omega

/-- Day addition preserves validity. -/
theorem CivilDate.Valid.addDays {d : CivilDate} (h : d.Valid) (n : Nat) :
    (CivilDate.addDays n d).Valid := by
  induction n generalizing d with
  | zero => exact h
  | succ n ih => exact ih h.nextDay

/-- Day addition never decreases the ordinal key of a valid date. -/
theorem CivilDate.key_le_addDays {d : CivilDate} (h : d.Valid) (n : Nat) :
    d.key ≤ (CivilDate.addDays n d).key := by
  induction n generalizing d with
  | zero => exact Nat.le_refl _
  | succ n ih =>
    exact Nat.le_trans (Nat.le_of_lt (CivilDate.key_lt_nextDay h)) (ih h.nextDay)

/-- Day addition splits over sums. -/
theorem CivilDate.addDays_addDays (a b : Nat) (d : CivilDate) :
    CivilDate.addDays (a + b) d = CivilDate.addDays b (CivilDate.addDays a d) := by
  induction a generalizing d with
  | zero => simp [CivilDate.addDays]
  | succ a ih =>
    have : a + 1 + b = (a + b) + 1 := by omega
    rw [this]
    show CivilDate.addDays (a + b) d.nextDay = _
    exact ih d.nextDay

/-- Three days out never lies beyond a week out, starting from a valid day. -/
theorem key_addDays_three_le_seven {today : CivilDate} (h : today.Valid) :
    (CivilDate.addDays 3 today).key ≤ (CivilDate.addDays 7 today).key := by
  have hsplit : CivilDate.addDays 7 today =
      CivilDate.addDays 4 (CivilDate.addDays 3 today) :=
    CivilDate.addDays_addDays 3 4 today
  rw [hsplit]
  exact CivilDate.key_le_addDays (h.addDays 3) 4

/-- An active task whose (parsed) due date lies between today and three days from
today, both bounds inclusive — the population the claim says `dueSoon` counts. -/
def dueSoonWindowP (today : CivilDate) (t : Task) : Bool :=
  t.status == "active" && jsTruthy t.dueDate &&
    (match t.dueDate.bind parseDate with
     | some dd =>
       decide (today.key ≤ dd.key) && decide (dd.key ≤ (CivilDate.addDays 3 today).key)
     | none => false)

/-- An active task whose (parsed) due date is exactly today. -/
def dueTodayP (today : CivilDate) (t : Task) : Bool :=
  t.status == "active" && jsTruthy t.dueDate &&
    (match t.dueDate.bind parseDate with
     | some dd => dd.key == today.key
     | none => false)

/-- The contribution of one task to `dueSoon` in one pass of the loop body. -/
def dueSoonInc (today weekFromNow threeDaysFromNow : CivilDate) (t : Task) : Nat :=
  if t.status == "active" then
    if ¬ jsTruthy t.dueDate then 0
    else
      match t.dueDate.bind parseDate with
      | none => 0
      | some dd =>
        (if dd.key = today.key then 1 else 0) +
        (if today.key ≤ dd.key ∧ dd.key ≤ weekFromNow.key then
          (if dd.key ≤ threeDaysFromNow.key then 1 else 0) else 0)
  else 0

/-- The status-count block never touches `dueSoon`. -/
theorem statsStatusCount_dueSoon (s : Stats) (t : Task) :
    (statsStatusCount s t).dueSoon = s.dueSoon := by
  unfold statsStatusCount
  split_ifs <;> rfl

/-- The priority-count block never touches `dueSoon`. -/
theorem statsPriorityCount_dueSoon (s : Stats) (t : Task) :
    (statsPriorityCount s t).dueSoon = s.dueSoon := by
  unfold statsPriorityCount
  split_ifs <;> rfl

/-- The overdue check never touches `dueSoon`. -/
theorem statsOverdue_dueSoon (today dd : CivilDate) (s : Stats) :
    (statsOverdue today dd s).dueSoon = s.dueSoon := by
  unfold statsOverdue
  split_ifs <;> rfl

/-- The due-today check adds one to `dueSoon` exactly when the due date is today. -/
theorem statsDueToday_dueSoon (today dd : CivilDate) (s : Stats) :
    (statsDueToday today dd s).dueSoon =
      s.dueSoon + (if dd.key = today.key then 1 else 0) := by
  unfold statsDueToday
  split_ifs <;> simp

/-- The due-this-week check adds one to `dueSoon` exactly when the due date is in
the week and within three days. -/
theorem statsDueWeek_dueSoon (today w th dd : CivilDate) (s : Stats) :
    (statsDueWeek today w th dd s).dueSoon =
      s.dueSoon + (if today.key ≤ dd.key ∧ dd.key ≤ w.key then
        (if dd.key ≤ th.key then 1 else 0) else 0) := by
  unfold statsDueWeek
  split_ifs <;> simp

/-- The due-date block adds exactly `dueSoonInc` to `dueSoon`. -/
theorem statsDueBuckets_dueSoon (today w th : CivilDate) (s : Stats) (t : Task) :
    (statsDueBuckets today w th s t).dueSoon = s.dueSoon + dueSoonInc today w th t := by
  unfold statsDueBuckets dueSoonInc
  cases hA : t.status == "active"
  · simp [hA]
  · cases hT : jsTruthy t.dueDate
    · simp [hA, hT]
    · cases hp : t.dueDate.bind parseDate with
      | none => simp [hA, hT, hp]
      | some dd =>
        simp only [hA, hT, hp, Bool.not_true, Bool.false_eq_true, not_true,
          if_false, if_true]
        rw [statsDueWeek_dueSoon, statsDueToday_dueSoon, statsOverdue_dueSoon]
        omega

/-- One pass of the loop body adds exactly `dueSoonInc` to `dueSoon`. -/
theorem statsStep_dueSoon (today w th : CivilDate) (s : Stats) (t : Task) :
    (statsStep today w th s t).dueSoon = s.dueSoon + dueSoonInc today w th t := by
  unfold statsStep
  rw [statsDueBuckets_dueSoon, statsPriorityCount_dueSoon, statsStatusCount_dueSoon]

/-- With the loop's actual week/three-day horizons (computed from a valid `today`),
the per-task `dueSoon` contribution is one for a task in the three-day window plus
one for a task due exactly today. -/
theorem dueSoonInc_eq {today : CivilDate} (hv : today.Valid) (t : Task) :
    dueSoonInc today (CivilDate.addDays 7 today) (CivilDate.addDays 3 today) t =
      (if dueSoonWindowP today t then 1 else 0) +
      (if dueTodayP today t then 1 else 0) := by
  have h37 := key_addDays_three_le_seven hv
  unfold dueSoonInc dueSoonWindowP dueTodayP
  cases hA : t.status == "active"
  · simp
  · simp only [Bool.true_and]
    cases hT : jsTruthy t.dueDate
    · simp
    · simp only [Bool.true_and, Bool.not_true, Bool.false_eq_true, if_false]
      cases hp : t.dueDate.bind parseDate with
      | none => simp
      | some dd =>
        simp only [decide_eq_true_eq, Bool.and_eq_true, beq_iff_eq]
        split_ifs <;> simp_all <;> omega

/-- Folding the loop body over a task list adds the two counts to `dueSoon`. -/
theorem foldl_statsStep_dueSoon {today : CivilDate} (hv : today.Valid)
    (ts : List Task) (s : Stats) :
    (ts.foldl (statsStep today (CivilDate.addDays 7 today)
        (CivilDate.addDays 3 today)) s).dueSoon =
      s.dueSoon + ts.countP (dueSoonWindowP today) + ts.countP (dueTodayP today) := by
  induction ts generalizing s with
  | nil => simp
  | cons t ts ih =>
    rw [List.foldl_cons, ih, statsStep_dueSoon, dueSoonInc_eq hv,
        List.countP_cons, List.countP_cons]
    omega

/-- Claim **C4 (counterexample).** `calculateStatistics` counts a task due exactly today
**twice** in `dueSoon` (once in the due-today branch and once in the
due-this-week/three-day branch), so the field is not the number of active tasks due
between today and three days out with each task contributing exactly one: a single
active task due today yields `dueSoon = 2` while that count is `1`. -/
theorem C4_dueSoon_counterexample :
    (calculateStatistics [{ id := "d1", title := "Due", dueDate := some "2024-06-01" }]
      ⟨2024, 6, 1⟩).dueSoon ≠
    List.countP (dueSoonWindowP ⟨2024, 6, 1⟩)
      [{ id := "d1", title := "Due", dueDate := some "2024-06-01" }] := by
  decide

/-- Claim **C4 (amended).** For every task list and valid `today`, the `dueSoon` field of
`calculateStatistics` equals the number of active tasks whose due date, normalized
to the start of day, lies between today and three days from today inclusive, **plus
one extra count for each active task due exactly today** (tasks due today contribute
two; tasks due in one to three days contribute one). -/
theorem C4_dueSoon_amended (tasks : List Task) (today : CivilDate)
    (hv : today.Valid) :
    (calculateStatistics tasks today).dueSoon =
      tasks.countP (dueSoonWindowP today) + tasks.countP (dueTodayP today) := by
  unfold calculateStatistics
  dsimp only
  split <;> rw [foldl_statsStep_dueSoon hv] <;> dsimp only <;> omega

/-- Claim **C4 (witness for the amended theorem).** On a concrete list with one task due
today, one due in two days and one due in five days (today 2024-06-01), `dueSoon`
is `2 + 1`: the window count is 2 and the due-today count is 1. -/
theorem C4_dueSoon_amended_witness :
    (CivilDate.Valid ⟨2024, 6, 1⟩) ∧
    (calculateStatistics
      [{ id := "d1", title := "A", dueDate := some "2024-06-01" },
       { id := "d2", title := "B", dueDate := some "2024-06-03" },
       { id := "d3", title := "C", dueDate := some "2024-06-06" }]
      ⟨2024, 6, 1⟩).dueSoon = 3 := by
  constructor
  · decide
  · rw [C4_dueSoon_amended _ _ (by decide)]
    decide

/-! ### C6: recurrence on completion -/

/-- A successful `find?` yields a `findIdx?` index holding the found element
(`findIndex` and `find` locate the same first match). -/
theorem find?_findIdx? {p : Task → Bool} {l : List Task} {x : Task}
    (h : l.find? p = some x) :
    ∃ i, l.findIdx? p = some i ∧ l[i]? = some x := by
  induction l with
  | nil => cases h
  | cons a l ih =>
    cases hp : p a
    · rw [List.find?_cons_of_neg _ (by simp [hp])] at h
      obtain ⟨i, hIdx, hGet⟩ := ih h
      exact ⟨i + 1, by simp [List.findIdx?_cons, hp, hIdx], by simpa using hGet⟩
    · rw [List.find?_cons_of_pos _ hp] at h
      cases h
      exact ⟨0, by simp [List.findIdx?_cons, hp], by simp⟩

/-- A `createTask` call succeeds on a nonempty title and a parsable due date, appending the
new record. -/
theorem createTask_ok_some_due (now : Nat) (fid : String) (tasks : List Task)
    (d : TaskData) (hT : ¬ (jsTrim d.title).length = 0) (ds : String)
    (hdd : d.dueDate = some ds) (hP : (parseDate ds).isSome) :
    ∃ nt, createTask now fid tasks d = (tasks ++ [nt], .ok nt) := by
  obtain ⟨dd, hp⟩ := Option.isSome_iff_exists.mp hP
  have hne := parseDate_isEmpty_false hp
  unfold createTask validateCreateDueDate
  rw [if_neg hT, hdd]
  simp only [hne, Bool.false_eq_true, if_false, hP, if_true]
  exact ⟨_, rfl⟩

/-- A `calculateNextOccurrence` call succeeds on a recurrence rule with a recognized
frequency and a parsable due date. -/
theorem calculateNextOccurrence_isSome {task : Task} {r : Recur}
    (hR : task.recurring = some r)
    (hfreq : r.frequency = "daily" ∨ r.frequency = "weekly" ∨ r.frequency = "monthly")
    {ds : String} (hdd : task.dueDate = some ds) {dd : CivilDate}
    (hp : parseDate ds = some dd) :
    (calculateNextOccurrence task).isSome = true := by
  have hne := parseDate_isEmpty_false hp
  unfold calculateNextOccurrence
  rw [hR, hdd]
  simp only [hne, Bool.false_eq_true, if_false, hp]
  rcases hfreq with h | h | h <;> rw [h] <;> rfl

/-- Inversion for a successful `calculateNextOccurrence`: the task carried a rule
with a recognized frequency and a parsable due date. -/
theorem calculateNextOccurrence_some_inv {task : Task} {s : String}
    (h : calculateNextOccurrence task = some s) :
    ∃ r ds dd, task.recurring = some r ∧ task.dueDate = some ds ∧
      ds.isEmpty = false ∧ parseDate ds = some dd ∧
      (r.frequency = "daily" ∨ r.frequency = "weekly" ∨ r.frequency = "monthly") := by
  revert h
  unfold calculateNextOccurrence
  split
  · split
    · intro h; cases h
    · split
      · intro h; cases h
      · split
        · intro h
          rename_i x3 x2 rule ds hrec hdue hne x1 dd hp xf hf
          exact ⟨rule, ds, dd, hrec, hdue, by simpa using hne, hp, Or.inl hf⟩
        · intro h
          rename_i x3 x2 rule ds hrec hdue hne x1 dd hp xf hf
          exact ⟨rule, ds, dd, hrec, hdue, by simpa using hne, hp, Or.inr (Or.inl hf)⟩
        · intro h
          rename_i x3 x2 rule ds hrec hdue hne x1 dd hp xf hf
          exact ⟨rule, ds, dd, hrec, hdue, by simpa using hne, hp, Or.inr (Or.inr hf)⟩
        · intro h; cases h
  · intro h; cases h

/-- Claim **C6 (counterexample).** A recurring task that is completed while it has **no
due date** gets `nextTask = null` even though it transitioned from active to
completed, carries a recurrence rule, and has no parent — so "non-null exactly when
transitioned ∧ recurring ∧ not a subtask" fails: `createNextRecurrence` also
requires a due date (and a recognized frequency) to produce anything. -/
theorem C6_toggle_recurrence_counterexample :
    (toggleTaskStatusWithRecurrence 5 "new"
        [{ id := "t1", title := "A", recurring := some { frequency := "daily" } }]
        "t1").2 =
      .ok ({ id := "t1", title := "A", status := "completed", updatedAt := 5,
             completedAt := some 5, recurring := some { frequency := "daily" } },
           none) := by
  decide

/-- Claim **C6 (amended).** For every stored task `t` (with a well-formed title, and whose
computed next occurrence — when one exists — is a parsable date),
`toggleStatusWithRecurrence(t.id)` succeeds and returns a non-null `nextTask`
exactly when `t` transitioned from active to completed, `t` carries a recurrence
rule **with a recognized frequency and a parsable due date**, and `t.parentId` is
absent; in particular for every subtask (truthy `parentId`) `nextTask` is null even
if the subtask is recurring and was just completed. -/
theorem C6_toggle_recurrence_next_task_amended (now : Nat) (freshId : String)
    (tasks : List Task) (id : String) (task : Task)
    (hFind : getTaskById tasks id = some task)
    (hTitle : ¬ (jsTrim task.title).length = 0)
    (hNext : ∀ s, calculateNextOccurrence task = some s → (parseDate s).isSome) :
    ∃ s' u nt,
      toggleTaskStatusWithRecurrence now freshId tasks id = (s', .ok (u, nt)) ∧
      (nt.isSome = true ↔
        (task.status = "active" ∧
         (∃ r, task.recurring = some r ∧
           (r.frequency = "daily" ∨ r.frequency = "weekly" ∨ r.frequency = "monthly")) ∧
         (∃ ds, task.dueDate = some ds ∧ (parseDate ds).isSome = true) ∧
         jsTruthy task.parentId = false)) := by
  obtain ⟨i, hIdx, hGet⟩ :=
    find?_findIdx? (show tasks.find? (fun t => t.id == id) = some task from hFind)
  unfold toggleTaskStatusWithRecurrence
  simp only [hFind]
  cases hA : task.status == "active" with
  | false =>
    obtain ⟨merged, hU⟩ : ∃ m, updateTask now tasks id { status := some "active" } =
        (tasks.set i m, .ok m) := ⟨_, updateTask_ok_eq now _ hIdx hGet rfl⟩
    simp only [Bool.false_eq_true, if_false, hU]
    simp only [show (("active" : String) == "completed") = false from rfl,
      Bool.false_and, if_false]
    refine ⟨_, _, none, rfl, ?_⟩
    simp only [Option.isSome_none, Bool.false_eq_true, false_iff]
    rintro ⟨hact, -, -, -⟩
    rw [hact] at hA
    simp at hA
  | true =>
    obtain ⟨merged, hU⟩ : ∃ m, updateTask now tasks id { status := some "completed" } =
        (tasks.set i m, .ok m) := ⟨_, updateTask_ok_eq now _ hIdx hGet rfl⟩
    simp only [if_true, hU]
    simp only [show (("completed" : String) == "completed") = true from rfl,
      Bool.true_and]
    cases hR : task.recurring with
    | none =>
      simp only [Option.isSome_none, Bool.false_and, Bool.false_eq_true, if_false]
      refine ⟨_, _, none, rfl, ?_⟩
      simp only [Option.isSome_none, Bool.false_eq_true, false_iff]
      rintro ⟨-, ⟨r, hr, -⟩, -, -⟩
      cases hr
    | some r =>
      cases hP : jsTruthy task.parentId with
      | true =>
        simp only [Bool.not_true, Bool.and_false, Bool.false_eq_true, if_false]
        refine ⟨_, _, none, rfl, ?_⟩
        simp only [Option.isSome_none, Bool.false_eq_true, false_iff]
        rintro ⟨-, -, -, hp⟩
        cases hp
      | false =>
        simp only [Option.isSome_some, Bool.true_and, Bool.and_true, Bool.not_false,
          if_true]
        unfold createNextRecurrence
        rw [hR]
        dsimp only
        cases hC : calculateNextOccurrence task with
        | none =>
          dsimp only
          refine ⟨_, _, none, rfl, ?_⟩
          simp only [Option.isSome_none, Bool.false_eq_true, false_iff]
          rintro ⟨hact, ⟨r', hr', hfreq⟩, ⟨ds, hds, hp⟩, -⟩
          cases hr'
          obtain ⟨dd, hpd⟩ := Option.isSome_iff_exists.mp hp
          have hsome := calculateNextOccurrence_isSome hR hfreq hds hpd
          rw [hC] at hsome
          simp at hsome
        | some nextDue =>
          dsimp only
          have hPD := hNext _ hC
          obtain ⟨nt0, hCT⟩ := createTask_ok_some_due now freshId (tasks.set i merged)
            { title := task.title, description := some task.description,
              priority := some task.priority, tags := some task.tags,
              dueDate := some nextDue, recurring := some r }
            hTitle nextDue rfl hPD
          rw [hCT]
          refine ⟨_, _, some nt0, rfl, ?_⟩
          simp only [Option.isSome_some, true_iff]
          obtain ⟨r', ds, dd, hr', hds, hne, hpd, hfreq⟩ :=
            calculateNextOccurrence_some_inv hC
          rw [hR] at hr'
          cases hr'
          exact ⟨eq_of_beq hA, ⟨r, rfl, hfreq⟩, ⟨ds, hds, by rw [hpd]; rfl⟩, trivial⟩

/-- Claim **C6 (witness for the amended theorem).** A concrete active recurring top-level
task with a due date produces a non-null next recurrence on completion; the same
theorem applied to a concrete recurring **subtask** yields `nextTask = null`. -/
theorem C6_toggle_recurrence_next_task_amended_witness :
    (∃ s' u nt,
      toggleTaskStatusWithRecurrence 5 "new"
        [{ id := "t1", title := "A", dueDate := some "2024-06-01",
           recurring := some { frequency := "daily" } }] "t1" = (s', .ok (u, nt)) ∧
      nt.isSome = true) ∧
    (∃ s' u nt,
      toggleTaskStatusWithRecurrence 5 "new"
        [{ id := "t2", title := "B", dueDate := some "2024-06-01",
           recurring := some { frequency := "daily" },
           parentId := some "t1" }] "t2" = (s', .ok (u, nt)) ∧
      nt.isSome = false) := by
  constructor
  · obtain ⟨s', u, nt, heq, hiff⟩ := C6_toggle_recurrence_next_task_amended 5 "new"
      [{ id := "t1", title := "A", dueDate := some "2024-06-01",
         recurring := some { frequency := "daily" } }] "t1"
      { id := "t1", title := "A", dueDate := some "2024-06-01",
        recurring := some { frequency := "daily" } }
      rfl (by decide) (by
        intro s hs
        have hc : calculateNextOccurrence
            { id := "t1", title := "A", dueDate := some "2024-06-01",
              recurring := some { frequency := "daily" } } = some "2024-06-02" := by
          decide
        rw [hc] at hs
        cases hs
        decide)
    refine ⟨s', u, nt, heq, ?_⟩
    exact hiff.mpr ⟨rfl, ⟨_, rfl, Or.inl rfl⟩, ⟨"2024-06-01", rfl, by decide⟩, rfl⟩
  · obtain ⟨s', u, nt, heq, hiff⟩ := C6_toggle_recurrence_next_task_amended 5 "new"
      [{ id := "t2", title := "B", dueDate := some "2024-06-01",
         recurring := some { frequency := "daily" },
         parentId := some "t1" }] "t2"
      { id := "t2", title := "B", dueDate := some "2024-06-01",
        recurring := some { frequency := "daily" },
        parentId := some "t1" }
      rfl (by decide) (by
        intro s hs
        have hc : calculateNextOccurrence
            { id := "t2", title := "B", dueDate := some "2024-06-01",
              recurring := some { frequency := "daily" },
              parentId := some "t1" } = some "2024-06-02" := by
          decide
        rw [hc] at hs
        cases hs
        decide)
    refine ⟨s', u, nt, heq, ?_⟩
    cases hnt : nt.isSome
    · rfl
    · exact absurd (hiff.mp hnt) (by rintro ⟨-, -, -, hp⟩; cases hp)

/-! ### C3: the completedAt/status invariant -/

/-- The data-model invariant of §3 of the spec: `completedAt` is non-null if and
only if `status == completed`. -/
def statusInv (t : Task) : Prop := t.completedAt ≠ none ↔ t.status = "completed"

/-- Creation preserves the invariant: a new record starts active with a null
`completedAt`. -/
theorem createTask_inv {now : Nat} {fid : String} {tasks : List Task} {d : TaskData}
    (hinv : ∀ t ∈ tasks, statusInv t) :
    ∀ t ∈ (createTask now fid tasks d).1, statusInv t := by
  unfold createTask
  split
  · exact hinv
  · split
    · exact hinv
    · dsimp only
      intro t ht
      rcases List.mem_append.mp ht with hmem | hmem
      · exact hinv t hmem
      · rw [List.mem_singleton] at hmem
        subst hmem
        unfold statusInv
        split_ifs <;> simp

/-- Updating with a documented status patch preserves the invariant. -/
theorem updateTask_inv {now : Nat} {tasks : List Task} {id : String} {p : Patch}
    (hdoc : p.status = none ∨ p.status = some "active" ∨ p.status = some "completed")
    (hinv : ∀ t ∈ tasks, statusInv t) :
    ∀ t ∈ (updateTask now tasks id p).1, statusInv t := by
  cases hIdx : tasks.findIdx? (fun t => t.id == id) with
  | none => unfold updateTask; simp only [hIdx]; exact hinv
  | some i =>
    cases hGet : tasks[i]? with
    | none => unfold updateTask; simp only [hIdx, hGet]; exact hinv
    | some told =>
      cases hVal : validatePatch p with
      | error e => unfold updateTask; simp only [hIdx, hGet, hVal]; exact hinv
      | ok p' =>
        rw [updateTask_ok_eq now p hIdx hGet hVal]
        intro t ht
        rcases List.mem_or_eq_of_mem_set ht with hmem | rfl
        · exact hinv t hmem
        · have hst := validatePatch_status hVal
          have htold := hinv told (List.getElem?_mem hGet)
          unfold statusInv handleStatusChange
          split_ifs with h1 h2
          · simp [applyPatch_status_of_some h1.1]
          · simp [applyPatch_status_of_some h2]
          · rcases hdoc with h0 | h0 | h0 <;> rw [h0] at hst
            · rw [applyPatch_completedAt]
              have hs2 : (applyPatch told p' now).status = told.status := by
                unfold applyPatch
                simp [hst]
              rw [hs2]
              exact htold
            · exact absurd hst h2
            · have hc : (applyPatch told p' now).completedAt ≠ none :=
                fun hcn => h1 ⟨hst, hcn⟩
              have hs2 : (applyPatch told p' now).status = "completed" :=
                applyPatch_status_of_some hst
              simp [hs2, hc]

/-- Deletion preserves the invariant (it only removes records). -/
theorem deleteTask_inv {tasks : List Task} {id : String}
    (hinv : ∀ t ∈ tasks, statusInv t) :
    ∀ t ∈ (deleteTask tasks id).1, statusInv t := by
  unfold deleteTask
  split
  · exact hinv
  · intro t ht
    exact hinv t (List.mem_of_mem_filter ht)

/-- Toggling preserves the invariant. -/
theorem toggleTaskStatus_inv {now : Nat} {tasks : List Task} {id : String}
    (hinv : ∀ t ∈ tasks, statusInv t) :
    ∀ t ∈ (toggleTaskStatus now tasks id).1, statusInv t := by
  unfold toggleTaskStatus
  cases hG : getTaskById tasks id with
  | none => simp only [hG]; exact hinv
  | some task =>
    simp only [hG]
    cases task.status == "active"
    · exact updateTask_inv (Or.inr (Or.inl rfl)) hinv
    · exact updateTask_inv (Or.inr (Or.inr rfl)) hinv

/-- Subtask creation preserves the invariant: it delegates to `createTask` and then
only touches the parent's `subtasks`/`updatedAt` fields. -/
theorem createSubtask_inv {now : Nat} {fid : String} {tasks : List Task}
    {pid : String} {d : TaskData} (hinv : ∀ t ∈ tasks, statusInv t) :
    ∀ t ∈ (createSubtask now fid tasks pid d).1, statusInv t := by
  unfold createSubtask
  cases hF : tasks.find? (fun t => t.id == pid) with
  | none => simp only [hF]; exact hinv
  | some parentTask =>
    simp only [hF]
    rcases hC : createTask now fid tasks { d with parentId := some pid } with ⟨ts1, res⟩
    cases res with
    | error e =>
      simp only [hC]
      intro t ht
      exact createTask_inv hinv t (by rw [hC]; exact ht)
    | ok subtask =>
      simp only [hC]
      cases hI : tasks.findIdx? (fun t => t.id == pid) with
      | none => simp only [hI]; exact hinv
      | some idx =>
        simp only [hI]
        intro t ht
        rcases List.mem_or_eq_of_mem_set ht with hmem | rfl
        · exact hinv t hmem
        · exact hinv parentTask (List.mem_of_find?_eq_some hF)

/-- Parent-progress propagation preserves the invariant: it either leaves storage
untouched or updates via documented status patches. -/
theorem updateParentTaskProgress_inv {now : Nat} {tasks : List Task} {pid : String}
    (hinv : ∀ t ∈ tasks, statusInv t) :
    ∀ t ∈ (updateParentTaskProgress now tasks pid).1, statusInv t := by
  unfold updateParentTaskProgress
  by_cases h1 : (getSubtasks tasks pid).isEmpty = true
  · rw [if_pos h1]; exact hinv
  · rw [if_neg h1]
    by_cases h2 : (getSubtasks tasks pid).all (fun st => st.status == "completed") = true
    · rw [if_pos h2]; exact updateTask_inv (Or.inr (Or.inr rfl)) hinv
    · rw [if_neg h2]
      by_cases h3 : (getSubtasks tasks pid).any (fun st => st.status == "completed") = true
      · rw [if_pos h3]
        cases hG : getTaskById tasks pid with
        | none => simp only [hG]; exact hinv
        | some parentTask =>
          simp only [hG]
          by_cases h4 : (parentTask.status == "completed") = true
          · rw [if_pos h4]; exact updateTask_inv (Or.inr (Or.inl rfl)) hinv
          · rw [if_neg h4]; exact hinv
      · rw [if_neg h3]; exact hinv

/-- Recurrence creation preserves the invariant (it only ever appends via
`createTask`). -/
theorem createNextRecurrence_inv {now : Nat} {fid : String} {tasks : List Task}
    {task : Task} (hinv : ∀ t ∈ tasks, statusInv t) :
    ∀ t ∈ (createNextRecurrence now fid tasks task).1, statusInv t := by
  unfold createNextRecurrence
  cases hR : task.recurring with
  | none => exact hinv
  | some r =>
    cases hC : calculateNextOccurrence task with
    | none => exact hinv
    | some nd =>
      rcases hK : createTask now fid tasks
        { title := task.title, description := some task.description,
          priority := some task.priority, tags := some task.tags,
          dueDate := some nd, recurring := some r } with ⟨ts1, res⟩
      cases res with
      | error e =>
        simp only [hK]
        intro t ht
        exact createTask_inv hinv t (by rw [hK]; exact ht)
      | ok newTask =>
        simp only [hK]
        intro t ht
        exact createTask_inv hinv t (by rw [hK]; exact ht)

/-- Toggling with recurrence handling preserves the invariant. -/
theorem toggleTaskStatusWithRecurrence_inv {now : Nat} {fid : String}
    {tasks : List Task} {id : String} (hinv : ∀ t ∈ tasks, statusInv t) :
    ∀ t ∈ (toggleTaskStatusWithRecurrence now fid tasks id).1, statusInv t := by
  unfold toggleTaskStatusWithRecurrence
  cases hG : getTaskById tasks id with
  | none => simp only [hG]; exact hinv
  | some task =>
    simp only [hG]
    cases hA : task.status == "active" with
    | false =>
      simp only [Bool.false_eq_true, if_false]
      rcases hU : updateTask now tasks id { status := some "active" } with ⟨ts1, res⟩
      have hinv1 : ∀ t ∈ ts1, statusInv t := fun t ht =>
        updateTask_inv (Or.inr (Or.inl rfl)) hinv t (by rw [hU]; exact ht)
      cases res with
      | error e => simp only [hU]; exact hinv1
      | ok u =>
        simp only [hU]
        simp only [show (("active" : String) == "completed") = false from rfl,
          Bool.false_and, Bool.false_eq_true, if_false]
        exact hinv1
    | true =>
      simp only [if_true]
      rcases hU : updateTask now tasks id { status := some "completed" } with ⟨ts1, res⟩
      have hinv1 : ∀ t ∈ ts1, statusInv t := fun t ht =>
        updateTask_inv (Or.inr (Or.inr rfl)) hinv t (by rw [hU]; exact ht)
      cases res with
      | error e => simp only [hU]; exact hinv1
      | ok u =>
        simp only [hU]
        by_cases hcond : (("completed" : String) == "completed" &&
            task.recurring.isSome && !jsTruthy task.parentId) = true
        · rw [if_pos hcond]
          rcases hN : createNextRecurrence now fid ts1 task with ⟨ts2, res2⟩
          have hinv2 : ∀ t ∈ ts2, statusInv t := fun t ht =>
            createNextRecurrence_inv hinv1 t (by rw [hN]; exact ht)
          cases res2 with
          | error e => simp only [hN]; exact hinv2
          | ok nextTask => simp only [hN]; exact hinv2
        · rw [if_neg hcond]
          exact hinv1

/-- One step of the task store, as invoked through the documented public
operations. -/
inductive Op where
  | create (now : Nat) (freshId : String) (data : TaskData)
  | update (now : Nat) (id : String) (p : Patch)
  | toggle (now : Nat) (id : String)
  | delete (id : String)
  | subtask (now : Nat) (freshId : String) (parentId : String) (data : TaskData)
  | parentProgress (now : Nat) (parentId : String)
  | nextRecurrence (now : Nat) (freshId : String) (t : Task)
  | toggleRecurrence (now : Nat) (freshId : String) (id : String)

/-- The storage contents after one store operation (successful or thrown). -/
def Op.apply : Op → List Task → List Task
  | .create now fid d, s => (createTask now fid s d).1
  | .update now id p, s => (updateTask now s id p).1
  | .toggle now id, s => (toggleTaskStatus now s id).1
  | .delete id, s => (deleteTask s id).1
  | .subtask now fid pid d, s => (createSubtask now fid s pid d).1
  | .parentProgress now pid, s => (updateParentTaskProgress now s pid).1
  | .nextRecurrence now fid t, s => (createNextRecurrence now fid s t).1
  | .toggleRecurrence now fid id, s => (toggleTaskStatusWithRecurrence now fid s id).1

/-- An operation uses only the documented patch fields: an update patch's status,
when present, is one of the documented enum values. -/
def Op.documented : Op → Prop
  | .update _ _ p =>
    p.status = none ∨ p.status = some "active" ∨ p.status = some "completed"
  | _ => True

/-- Every documented operation preserves the invariant. -/
theorem Op.apply_inv (op : Op) (hdoc : op.documented) {s : List Task}
    (hinv : ∀ t ∈ s, statusInv t) : ∀ t ∈ op.apply s, statusInv t := by
  cases op with
  | create now fid d => exact createTask_inv hinv
  | update now id p => exact updateTask_inv hdoc hinv
  | toggle now id => exact toggleTaskStatus_inv hinv
  | delete id => exact deleteTask_inv hinv
  | subtask now fid pid d => exact createSubtask_inv hinv
  | parentProgress now pid => exact updateParentTaskProgress_inv hinv
  | nextRecurrence now fid t => exact createNextRecurrence_inv hinv
  | toggleRecurrence now fid id => exact toggleTaskStatusWithRecurrence_inv hinv

/-- The invariant holds in every state reachable from an invariant state. -/
theorem foldl_apply_inv (ops : List Op) (s : List Task)
    (hdoc : ∀ op ∈ ops, op.documented) (hinv : ∀ t ∈ s, statusInv t) :
    ∀ t ∈ ops.foldl (fun acc op => op.apply acc) s, statusInv t := by
  induction ops generalizing s with
  | nil => simpa using hinv
  | cons op ops ih =>
    rw [List.foldl_cons]
    exact ih _ (fun o ho => hdoc o (List.mem_cons_of_mem _ ho))
      (Op.apply_inv op (hdoc op (List.mem_cons_self _ _)) hinv)

/-- Claim **C3.** In every task collection reachable from the empty store by any sequence
of the store's operations (create, update, toggleStatus, delete, createSubtask,
updateParentTaskProgress, createNextRecurrence, toggleStatusWithRecurrence) applied
with the documented patch fields, every task satisfies: `completedAt` is non-null
if and only if its status equals `completed`. -/
theorem C3_completedAt_iff_completed (ops : List Op)
    (hdoc : ∀ op ∈ ops, op.documented) :
    ∀ t ∈ ops.foldl (fun acc op => op.apply acc) [],
      t.completedAt ≠ none ↔ t.status = "completed" :=
  foldl_apply_inv ops [] hdoc (by intro t ht; cases ht)

/-- Claim **C3 (witness).** A concrete operation sequence — create, toggle to completed,
re-complete via update, toggle back with recurrence handling, and a failing
delete — reaches only states satisfying the invariant. -/
theorem C3_completedAt_iff_completed_witness :
    (∀ op ∈ ([.create 3 "id1" { title := "Buy milk" },
              .toggle 4 "id1",
              .update 5 "id1" { status := some "completed" },
              .toggleRecurrence 6 "fresh1" "id1",
              .delete "missing"] : List Op), op.documented) ∧
    (∀ t ∈ ([Op.create 3 "id1" { title := "Buy milk" },
             Op.toggle 4 "id1",
             Op.update 5 "id1" { status := some "completed" },
             Op.toggleRecurrence 6 "fresh1" "id1",
             Op.delete "missing"]).foldl (fun acc op => op.apply acc) [],
      t.completedAt ≠ none ↔ t.status = "completed") := by
  have hdoc : ∀ op ∈ ([.create 3 "id1" { title := "Buy milk" },
      .toggle 4 "id1",
      .update 5 "id1" { status := some "completed" },
      .toggleRecurrence 6 "fresh1" "id1",
      .delete "missing"] : List Op), op.documented := by
    intro op hop
    simp only [List.mem_cons, List.not_mem_nil, or_false] at hop
    rcases hop with rfl | rfl | rfl | rfl | rfl <;> simp [Op.documented]
  exact ⟨hdoc, C3_completedAt_iff_completed _ hdoc⟩

end TaskManager
